import Mathlib

/-!
Shallow embedding of the playback-engine core of ffplay.c (simplified
ffplay 3.2.4): the packet queue with generational serials, the frame
queue consumers, the clock model, master-clock selection, the video
refresh delay controller, the audio sample-count compensation, and the
reader's backpressure predicate.

C doubles are modelled as `Option ℚ`: `none` stands for NaN, `some x`
for the real value `x` (exact rational arithmetic in place of binary
floating point). Every C comparison against a NaN operand is false,
which the `Option` matches reproduce. C `int`/`int64_t` fields are
modelled as `Int`; overflow is not exercised by any claim.
-/

namespace FFplay

/-- A C double: `none` is NaN. -/
abbrev EDouble := Option ℚ

/-- Subtraction on doubles: NaN absorbs. -/
def esub (a b : EDouble) : EDouble :=
  match a, b with
  | some x, some y => some (x - y)
  | _, _ => none

@[simp] theorem esub_some (x y : ℚ) : esub (some x) (some y) = some (x - y) := rfl

@[simp] theorem esub_none_left (b : EDouble) : esub none b = none := rfl

@[simp] theorem esub_none_right (a : EDouble) : esub a none = none := by
  cases a <;> rfl

/-! ## Packets and the packet queue (ffplay.c lines 333-499)

An `AVPacket` enters the queue either as the distinguished flush marker
(the global `flush_pkt`, recognised by identity) or as a data packet
carrying a payload size and a duration; the null packet of
`packet_queue_put_nullpacket` is a data packet with size 0 and
duration 0 (`av_init_packet`). -/

inductive Packet where
  | flushPkt : Packet
  | dataPkt (size : Int) (duration : Int) : Packet
deriving DecidableEq, Repr

/-- Payload byte count of a packet (`pkt.size`; the flush marker carries none). -/
def Packet.size : Packet → Int
  | .flushPkt => 0
  | .dataPkt s _ => s

/-- Duration of a packet in the stream time base (`pkt.duration`). -/
def Packet.duration : Packet → Int
  | .flushPkt => 0
  | .dataPkt _ d => d

/-- One `MyAVPacketList` entry: the packet and the serial stamped on it. -/
structure PacketEntry where
  pkt : Packet
  serial : Int
deriving DecidableEq, Repr

/-- The fixed per-entry overhead `sizeof(MyAVPacketList)` added to `q->size`
for every enqueued entry (platform constant; its value plays no role in any
claim, only that it is the same on put and on get). -/
def sizeofMyAVPacketList : Int := 96

/-- PacketQueue state: the linked list `first_pkt..last_pkt` as a Lean list,
plus the counter fields of the C struct. -/
structure PacketQueue where
  pkts : List PacketEntry
  nb_packets : Int
  size : Int
  duration : Int
  serial : Int
  abort_request : Bool
deriving DecidableEq, Repr

/-- ffplay.c:364 `packet_queue_put_private`: fails (None) when aborted;
otherwise bumps `serial` first iff the packet is the flush marker, stamps
the entry with the current serial, appends and updates the counters. -/
def packet_queue_put_private (q : PacketQueue) (pkt : Packet) : Option PacketQueue :=
  if q.abort_request then none
  else
    let ser := if pkt = Packet.flushPkt then q.serial + 1 else q.serial
    some { q with
      pkts := q.pkts ++ [⟨pkt, ser⟩]
      serial := ser
      nb_packets := q.nb_packets + 1
      size := q.size + pkt.size + sizeofMyAVPacketList
      duration := q.duration + pkt.duration }

/-- ffplay.c:393 `packet_queue_put`: the locked wrapper; on failure the
queue is unchanged and -1 is returned. -/
def packet_queue_put (q : PacketQueue) (pkt : Packet) : Int × PacketQueue :=
  match packet_queue_put_private q pkt with
  | some q2 => (0, q2)
  | none => (-1, q)

/-- ffplay.c:407 `packet_queue_put_nullpacket`: an empty data packet. -/
def packet_queue_put_nullpacket (q : PacketQueue) : Int × PacketQueue :=
  packet_queue_put q (Packet.dataPkt 0 0)

/-- ffplay.c:418 `packet_queue_init`: zeroed struct with `abort_request = 1`. -/
def packet_queue_init : PacketQueue :=
  { pkts := [], nb_packets := 0, size := 0, duration := 0, serial := 0,
    abort_request := true }

/-- ffplay.c:435 `packet_queue_flush`: frees every entry and zeroes the
counters; `serial` and `abort_request` are untouched. -/
def packet_queue_flush (q : PacketQueue) : PacketQueue :=
  { q with pkts := [], nb_packets := 0, size := 0, duration := 0 }

/-- ffplay.c:453 `packet_queue_start`: clears `abort_request`, then puts the
flush marker (which always succeeds since the abort flag was just cleared). -/
def packet_queue_start (q : PacketQueue) : PacketQueue :=
  let q2 := { q with abort_request := false }
  (packet_queue_put_private q2 Packet.flushPkt).getD q2

/-- Result of `packet_queue_get` (ffplay.c:461): < 0 aborted, 0 empty and
non-blocking, > 0 a packet with its stamped serial. -/
inductive GetResult where
  | aborted
  | empty
  | got (pkt : Packet) (serial : Int)
deriving DecidableEq, Repr

/-- ffplay.c:461 `packet_queue_get`, one attempt: abort wins; else pop the
head and downdate the counters; an empty queue yields `empty` (with
`block` set the thread waits, which changes no state). -/
def packet_queue_get (q : PacketQueue) : GetResult × PacketQueue :=
  if q.abort_request then (GetResult.aborted, q)
  else
    match q.pkts with
    | [] => (GetResult.empty, q)
    | e :: rest =>
        (GetResult.got e.pkt e.serial,
         { q with
            pkts := rest
            nb_packets := q.nb_packets - 1
            size := q.size - (e.pkt.size + sizeofMyAVPacketList)
            duration := q.duration - e.pkt.duration })

/-- The operations a packet queue undergoes. -/
inductive PQOp where
  | put (pkt : Packet)
  | put_null
  | get
  | flush
  | start
  | abort
deriving DecidableEq, Repr

/-- State transition of one operation (the returned value, when any, does
not affect the queue beyond what the state records). -/
def pq_step (q : PacketQueue) (op : PQOp) : PacketQueue :=
  match op with
  | .put pkt => (packet_queue_put q pkt).2
  | .put_null => (packet_queue_put_nullpacket q).2
  | .get => (packet_queue_get q).2
  | .flush => packet_queue_flush q
  | .start => packet_queue_start q
  | .abort => { q with abort_request := true }

/-- Run a sequence of operations. -/
def pq_run (q : PacketQueue) (ops : List PQOp) : PacketQueue :=
  ops.foldl pq_step q

/-- How many flush markers the operation actually enqueues on queue `q`:
one for a non-aborted `put flush_pkt`, one for `start` (whose inner put
cannot fail), zero otherwise. -/
def flush_markers_enqueued (q : PacketQueue) (op : PQOp) : Int :=
  match op with
  | .put pkt => if q.abort_request = false ∧ pkt = Packet.flushPkt then 1 else 0
  | .start => 1
  | _ => 0

/-- Flush markers enqueued along a whole operation sequence. -/
def flush_markers_trace (q : PacketQueue) : List PQOp → Int
  | [] => 0
  | op :: ops => flush_markers_enqueued q op + flush_markers_trace (pq_step q op) ops

/-- The accounting invariant of a packet queue: `size` is the sum over the
entries of payload bytes plus the fixed per-entry overhead, `nb_packets`
is the entry count, and `duration` is the sum of the entries' durations. -/
def pq_accounting (q : PacketQueue) : Prop :=
  q.size = (q.pkts.map (fun e => e.pkt.size + sizeofMyAVPacketList)).sum ∧
  q.nb_packets = (q.pkts.length : Int) ∧
  q.duration = (q.pkts.map (fun e => e.pkt.duration)).sum

/-! ## Clocks (ffplay.c lines 1145-1192)

`av_gettime_relative() / 1000000.0` is passed in explicitly as `time`;
`*c->queue_serial` is passed in as the dereferenced value
`queue_serial`. `pts` and `pts_drift` may be NaN (the clock starts at
NaN); `last_updated` and `speed` are always finite. -/

structure Clock where
  pts : EDouble
  pts_drift : EDouble
  last_updated : ℚ
  speed : ℚ
  serial : Int
  paused : Bool
deriving DecidableEq, Repr

/-- ffplay.c:1145 `get_clock`: NaN when the queue serial moved on; the
stored pts when paused; otherwise the drifting reading
`pts_drift + time - (time - last_updated) * (1 - speed)`. -/
def get_clock (c : Clock) (queue_serial : Int) (time : ℚ) : EDouble :=
  if queue_serial ≠ c.serial then none
  else if c.paused then c.pts
  else c.pts_drift.map (fun drift => drift + time - (time - c.last_updated) * (1 - c.speed))

/-- ffplay.c:1157 `set_clock_at`. -/
def set_clock_at (c : Clock) (pts : EDouble) (serial : Int) (time : ℚ) : Clock :=
  { c with
    pts := pts
    last_updated := time
    pts_drift := pts.map (fun p => p - time)
    serial := serial }

/-- ffplay.c:1165 `set_clock`: `set_clock_at` at the current time. -/
def set_clock (c : Clock) (pts : EDouble) (serial : Int) (time : ℚ) : Clock :=
  set_clock_at c pts serial time

/-! ## Master selection and the engine state slice (ffplay.c 1194-1228)

`VideoState` is cut down to the fields the synchronization functions
read. `audio_st`/`video_st` are the null tests on the stream pointers.
The video clock's `queue_serial` points at `videoq.serial`, the audio
clock's at `audioq.serial`, and the external clock's at its own
`serial` field (init_clock(&is->extclk, &is->extclk.serial)). -/

inductive SyncType where
  | audioMaster
  | videoMaster
  | externalClock
deriving DecidableEq, Repr

structure VideoState where
  av_sync_type : SyncType
  audio_st : Bool
  video_st : Bool
  audclk : Clock
  vidclk : Clock
  extclk : Clock
  audioq_serial : Int
  videoq_serial : Int
  max_frame_duration : ℚ
  audio_diff_cum : ℚ
  audio_diff_avg_coef : ℚ
  audio_diff_avg_count : Int
  audio_diff_threshold : ℚ
  audio_src_freq : Int
deriving DecidableEq, Repr

/-- ffplay.c:1194 `get_master_sync_type`. -/
def get_master_sync_type (is : VideoState) : SyncType :=
  if is.av_sync_type = SyncType.videoMaster then
    if is.video_st then SyncType.videoMaster else SyncType.audioMaster
  else if is.av_sync_type = SyncType.audioMaster then
    if is.audio_st then SyncType.audioMaster else SyncType.externalClock
  else
    SyncType.externalClock

/-- ffplay.c:1212 `get_master_clock`. -/
def get_master_clock (is : VideoState) (time : ℚ) : EDouble :=
  match get_master_sync_type is with
  | SyncType.videoMaster => get_clock is.vidclk is.videoq_serial time
  | SyncType.audioMaster => get_clock is.audclk is.audioq_serial time
  | SyncType.externalClock => get_clock is.extclk is.extclk.serial time

/-! ## Video refresh delay controller (ffplay.c 1251-1293) -/

def AV_SYNC_THRESHOLD_MIN : ℚ := 4 / 100

def AV_SYNC_THRESHOLD_MAX : ℚ := 1 / 10

def AV_SYNC_FRAMEDUP_THRESHOLD : ℚ := 1 / 10

def AV_NOSYNC_THRESHOLD : ℚ := 10

/-- ffplay.c:1251 `compute_target_delay`: when video is not the master,
correct the delay from `diff = get_clock(vidclk) - get_master_clock`
with the threshold `FFMAX(MIN, FFMIN(MAX, delay))`; a NaN diff or one at
least `max_frame_duration` in magnitude leaves the delay unchanged. -/
def compute_target_delay (delay : ℚ) (is : VideoState) (time : ℚ) : ℚ :=
  if get_master_sync_type is ≠ SyncType.videoMaster then
    let diffE := esub (get_clock is.vidclk is.videoq_serial time) (get_master_clock is time)
    let sync_threshold := max AV_SYNC_THRESHOLD_MIN (min AV_SYNC_THRESHOLD_MAX delay)
    match diffE with
    | none => delay
    | some diff =>
      if |diff| < is.max_frame_duration then
        if diff ≤ -sync_threshold then max 0 (delay + diff)
        else if diff ≥ sync_threshold ∧ delay > AV_SYNC_FRAMEDUP_THRESHOLD then delay + diff
        else if diff ≥ sync_threshold then 2 * delay
        else delay
      else delay
  else delay

/-! ## Frames, the frame queue and its consumers (ffplay.c 596-707) -/

/-- The fields of a queued `Frame` that the consumers inspect. -/
structure Frame where
  pts : EDouble
  duration : ℚ
  serial : Int
deriving DecidableEq, Repr

/-- ffplay.c:1282 `vp_duration`: with matching serials, the pts step to the
next frame when it is a real positive number not exceeding
`max_frame_duration`, else the frame's own duration estimate; with differing
serials, 0.0. -/
def vp_duration (max_frame_duration : ℚ) (vp nextvp : Frame) : ℚ :=
  if vp.serial = nextvp.serial then
    match esub nextvp.pts vp.pts with
    | none => vp.duration
    | some d => if d ≤ 0 ∨ d > max_frame_duration then vp.duration else d
  else 0

/-- FrameQueue state as its consumers see it: the occupied slots from
`rindex` in queue order (`size` of them), with the `rindex_shown` and
`keep_last` flags. The ring-buffer indices are left implicit: the slot at
`(rindex + k) % max_size` is `frames[k]`. -/
structure FrameQueue where
  frames : List Frame
  rindex_shown : Bool
  keep_last : Bool
deriving DecidableEq, Repr

/-- The `rindex_shown` field as the 0/1 integer the C code adds to indices. -/
def FrameQueue.shown (f : FrameQueue) : Nat :=
  f.rindex_shown.toNat

/-- ffplay.c:704 `frame_queue_nb_remaining` = `size - rindex_shown`. -/
def frame_queue_nb_remaining (f : FrameQueue) : Int :=
  (f.frames.length : Int) - (f.shown : Int)

/-- ffplay.c:631 `frame_queue_peek`: the slot at `(rindex + rindex_shown) % max_size`. -/
def frame_queue_peek (f : FrameQueue) : Option Frame :=
  f.frames.get? f.shown

/-- ffplay.c:641 `frame_queue_peek_last`: the slot at `rindex`. -/
def frame_queue_peek_last (f : FrameQueue) : Option Frame :=
  f.frames.head?

/-- ffplay.c:662 `frame_queue_peek_readable`: blocks while
`size - rindex_shown <= 0`; here, `none` when nothing will become readable
(the abort outcome), else the same slot as `frame_queue_peek`. -/
def frame_queue_peek_readable (f : FrameQueue) : Option Frame :=
  if frame_queue_nb_remaining f ≤ 0 then none else frame_queue_peek f

/-- ffplay.c:688 `frame_queue_next`: with `keep_last` and the slot not yet
shown, only set `rindex_shown`; otherwise free the frame at `rindex` and
advance. -/
def frame_queue_next (f : FrameQueue) : FrameQueue :=
  if f.keep_last ∧ f.rindex_shown = false then { f with rindex_shown := true }
  else { f with frames := f.frames.tail }

/-- The frames still to be consumed: the slots past the shown one. -/
def FrameQueue.remaining (f : FrameQueue) : List Frame :=
  f.frames.drop f.shown

theorem remaining_length_lt_of_next (f : FrameQueue)
    (h : 0 < frame_queue_nb_remaining f) :
    (frame_queue_next f).remaining.length < f.remaining.length := by
  have hlen : f.shown < f.frames.length := by
    unfold frame_queue_nb_remaining at h
    omega
  unfold frame_queue_next
  by_cases hk : f.keep_last ∧ f.rindex_shown = false
  · rw [if_pos hk]
    have hs : f.shown = 0 := by
      unfold FrameQueue.shown
      rw [hk.2]
      rfl
    simp only [FrameQueue.remaining, FrameQueue.shown, Bool.toNat_true,
      List.length_drop]
    rw [hk.2]
    simp only [Bool.toNat_false]
    unfold FrameQueue.shown at hs
    omega
  · rw [if_neg hk]
    simp only [FrameQueue.remaining, FrameQueue.shown, List.length_drop,
      List.length_tail]
    unfold FrameQueue.shown at hlen
    omega

/-- ffplay.c:1332-1335, the stale-discard loop at the head of the video
refresh step: while the queue has a remaining picture whose serial is not
the video packet queue's serial, `frame_queue_next` it; the first matching
picture (if any) is the one the refresh step goes on to commit. Returns
that picture and the queue state at the moment of commit. -/
def video_refresh_pick (f : FrameQueue) (videoq_serial : Int) : Option Frame × FrameQueue :=
  if frame_queue_nb_remaining f ≤ 0 then (none, f)
  else
    match frame_queue_peek f with
    | none => (none, f)
    | some vp =>
      if vp.serial ≠ videoq_serial then
        video_refresh_pick (frame_queue_next f) videoq_serial
      else (some vp, f)
termination_by f.remaining.length
decreasing_by
  exact remaining_length_lt_of_next f (by omega)

/-- ffplay.c:2054-2058, the do-while at the head of `audio_decode_frame`:
pop sample-queue frames until one carries the audio packet queue's current
serial; `none` models the aborted `peek_readable`. Returns the frame the
rest of `audio_decode_frame` uses and the queue after the loop. -/
def audio_decode_frame_pick (f : FrameQueue) (audioq_serial : Int) :
    Option Frame × FrameQueue :=
  match hr : frame_queue_peek_readable f with
  | none => (none, f)
  | some af =>
    if af.serial ≠ audioq_serial then
      audio_decode_frame_pick (frame_queue_next f) audioq_serial
    else (some af, frame_queue_next f)
termination_by f.remaining.length
decreasing_by
  apply remaining_length_lt_of_next
  unfold frame_queue_peek_readable at hr
  by_cases h0 : frame_queue_nb_remaining f ≤ 0
  · simp [h0] at hr
  · omega

/-! ## Audio sample-count compensation (ffplay.c 1998-2037) -/

def SAMPLE_CORRECTION_PERCENT_MAX : Int := 10

def AUDIO_DIFF_AVG_NB : Int := 20

/-- The C cast `(int)` of a double: truncation toward zero. -/
def truncToInt (q : ℚ) : Int := if 0 ≤ q then ⌊q⌋ else ⌈q⌉

/-- libavutil `av_clip`. -/
def av_clip (a amin amax : Int) : Int :=
  if a < amin then amin else if a > amax then amax else a

/-- ffplay.c:1998 `synchronize_audio`: returns the wanted sample count and
the updated averaging state. Active only when audio is not the master;
the EMA of the A-V difference gates the correction, which is clipped to
plus or minus `SAMPLE_CORRECTION_PERCENT_MAX` percent computed with C
integer division. -/
def synchronize_audio (is : VideoState) (nb_samples : Int) (time : ℚ) :
    Int × VideoState :=
  if get_master_sync_type is ≠ SyncType.audioMaster then
    match esub (get_clock is.audclk is.audioq_serial time) (get_master_clock is time) with
    | some diff =>
      if |diff| < AV_NOSYNC_THRESHOLD then
        let cum := diff + is.audio_diff_avg_coef * is.audio_diff_cum
        let is1 := { is with audio_diff_cum := cum }
        if is1.audio_diff_avg_count < AUDIO_DIFF_AVG_NB then
          (nb_samples, { is1 with audio_diff_avg_count := is1.audio_diff_avg_count + 1 })
        else
          let avg_diff := cum * (1 - is1.audio_diff_avg_coef)
          if |avg_diff| ≥ is1.audio_diff_threshold then
            let wanted := nb_samples + truncToInt (diff * (is.audio_src_freq : ℚ))
            let min_nb := Int.tdiv (nb_samples * (100 - SAMPLE_CORRECTION_PERCENT_MAX)) 100
            let max_nb := Int.tdiv (nb_samples * (100 + SAMPLE_CORRECTION_PERCENT_MAX)) 100
            (av_clip wanted min_nb max_nb, is1)
          else (nb_samples, is1)
      else
        (nb_samples, { is with audio_diff_avg_count := 0, audio_diff_cum := 0 })
    | none =>
      (nb_samples, { is with audio_diff_avg_count := 0, audio_diff_cum := 0 })
  else (nb_samples, is)

/-! ## Reader backpressure (ffplay.c 2458-2466 and 2690-2702) -/

def MAX_QUEUE_SIZE : Int := 15 * 1024 * 1024

def MIN_FRAMES : Int := 25

/-- The slice of `AVStream` the backpressure predicate reads:
the `AV_DISPOSITION_ATTACHED_PIC` bit and `av_q2d(st->time_base)`. -/
structure StreamInfo where
  attached_pic : Bool
  time_base : ℚ
deriving DecidableEq, Repr

/-- ffplay.c:2458 `stream_has_enough_packets`: an unopened stream
(`stream_id < 0`), an aborted queue, an attached-pic stream, or more than
`MIN_FRAMES` packets whose accumulated duration is either unknown (zero)
or converts to over one second. -/
def stream_has_enough_packets (st : StreamInfo) (stream_id : Int)
    (queue : PacketQueue) : Bool :=
  decide (stream_id < 0) || queue.abort_request || st.attached_pic ||
    (decide (queue.nb_packets > MIN_FRAMES) &&
     (decide (queue.duration = 0) ||
      decide (st.time_base * (queue.duration : ℚ) > 1)))

/-- ffplay.c:2690-2702, the backpressure test of the reader loop: with
finite buffering, wait when the three queues' total size tops
`MAX_QUEUE_SIZE` or every stream has enough packets. -/
def reader_should_wait (infinite_buffer : Int)
    (audio_st video_st subtitle_st : StreamInfo)
    (audio_stream video_stream subtitle_stream : Int)
    (audioq videoq subtitleq : PacketQueue) : Bool :=
  decide (infinite_buffer < 1) &&
    (decide (audioq.size + videoq.size + subtitleq.size > MAX_QUEUE_SIZE) ||
     (stream_has_enough_packets audio_st audio_stream audioq &&
      stream_has_enough_packets video_st video_stream videoq &&
      stream_has_enough_packets subtitle_st subtitle_stream subtitleq))

/-- Modelled from the words of the claim (not from the source): a stream
has enough packets precisely when its queue is aborted, or it is an
attached-pic stream, or it holds more than 25 packets whose accumulated
duration converted by the stream time base exceeds one second; an
unopened stream does not count. -/
def claimed_stream_has_enough_packets (st : StreamInfo) (stream_id : Int)
    (queue : PacketQueue) : Bool :=
  decide (stream_id < 0) || queue.abort_request || st.attached_pic ||
    (decide (queue.nb_packets > MIN_FRAMES) &&
     decide (st.time_base * (queue.duration : ℚ) > 1))

/-- Modelled from the words of the claim: the reader waits exactly when
buffering is not infinite and either the total queued bytes exceed
`MAX_QUEUE_SIZE` or every opened stream has enough packets in the claimed
sense. -/
def claimed_reader_should_wait (infinite_buffer : Int)
    (audio_st video_st subtitle_st : StreamInfo)
    (audio_stream video_stream subtitle_stream : Int)
    (audioq videoq subtitleq : PacketQueue) : Bool :=
  decide (infinite_buffer < 1) &&
    (decide (audioq.size + videoq.size + subtitleq.size > MAX_QUEUE_SIZE) ||
     (claimed_stream_has_enough_packets audio_st audio_stream audioq &&
      claimed_stream_has_enough_packets video_st video_stream videoq &&
      claimed_stream_has_enough_packets subtitle_st subtitle_stream subtitleq))

/-- The claim's enough-packets predicate amended by the one missing
disjunct the source has: a queue whose accumulated duration is zero (no
duration information) also counts once it holds more than `MIN_FRAMES`
packets. -/
def amended_stream_has_enough_packets (st : StreamInfo) (stream_id : Int)
    (queue : PacketQueue) : Bool :=
  decide (stream_id < 0) || queue.abort_request || st.attached_pic ||
    (decide (queue.nb_packets > MIN_FRAMES) &&
     (decide (queue.duration = 0) ||
      decide (st.time_base * (queue.duration : ℚ) > 1)))

/-- The claim's wait predicate with the amended enough-packets test. -/
def amended_reader_should_wait (infinite_buffer : Int)
    (audio_st video_st subtitle_st : StreamInfo)
    (audio_stream video_stream subtitle_stream : Int)
    (audioq videoq subtitleq : PacketQueue) : Bool :=
  decide (infinite_buffer < 1) &&
    (decide (audioq.size + videoq.size + subtitleq.size > MAX_QUEUE_SIZE) ||
     (amended_stream_has_enough_packets audio_st audio_stream audioq &&
      amended_stream_has_enough_packets video_st video_stream videoq &&
      amended_stream_has_enough_packets subtitle_st subtitle_stream subtitleq))

/-! ## Concrete states used to exercise the theorems -/

/-- A clock as `init_clock` leaves it: NaN pts, speed 1, serial -1. -/
def initClock : Clock :=
  { pts := none, pts_drift := none, last_updated := 0, speed := 1,
    serial := -1, paused := false }

/-- A paused clock reading `p` whenever the queue serial is `s`. -/
def pausedClock (p : ℚ) (s : Int) : Clock :=
  { pts := some p, pts_drift := some p, last_updated := 0, speed := 1,
    serial := s, paused := true }

/-- A neutral engine state: audio master with both streams open. -/
def baseState : VideoState :=
  { av_sync_type := SyncType.audioMaster, audio_st := true, video_st := true,
    audclk := initClock, vidclk := initClock, extclk := initClock,
    audioq_serial := 0, videoq_serial := 0, max_frame_duration := 3600,
    audio_diff_cum := 0, audio_diff_avg_coef := 0, audio_diff_avg_count := 0,
    audio_diff_threshold := 0, audio_src_freq := 44100 }

/-- External master; the video clock reads 0 and the external clock 1, so
the video slave sees `diff = -1`. -/
def videoSlaveState : VideoState :=
  { baseState with
    av_sync_type := SyncType.externalClock,
    vidclk := pausedClock 0 0,
    extclk := pausedClock 1 7 }

/-- External master; the audio clock reads 5 and the external clock 6, so
the audio slave sees `diff = -1`; the EMA is warmed up
(`audio_diff_avg_count = AUDIO_DIFF_AVG_NB`, coefficient 0) and the
threshold is low, so the correction path runs. -/
def audioSlaveState : VideoState :=
  { baseState with
    av_sync_type := SyncType.externalClock,
    audclk := pausedClock 5 0,
    extclk := pausedClock 6 7,
    audio_diff_avg_count := AUDIO_DIFF_AVG_NB,
    audio_diff_threshold := 1 / 2 }

/-! ## Packet queue lemmas -/

theorem pq_step_serial (q : PacketQueue) (op : PQOp) :
    (pq_step q op).serial = q.serial + flush_markers_enqueued q op := by
  cases op with
  | put pkt =>
    simp only [pq_step, packet_queue_put, packet_queue_put_private,
      flush_markers_enqueued]
    by_cases habort : q.abort_request
    · simp [habort]
    · by_cases hflush : pkt = Packet.flushPkt
      · simp [habort, hflush]
      · simp [habort, hflush]
  | put_null =>
    simp only [pq_step, packet_queue_put_nullpacket, packet_queue_put,
      packet_queue_put_private, flush_markers_enqueued]
    by_cases habort : q.abort_request
    · simp [habort]
    · simp [habort]
  | get =>
    simp only [pq_step, packet_queue_get, flush_markers_enqueued]
    by_cases habort : q.abort_request
    · simp [habort]
    · cases q.pkts <;> simp [habort]
  | flush => simp [pq_step, packet_queue_flush, flush_markers_enqueued]
  | start =>
    simp [pq_step, packet_queue_start, packet_queue_put_private,
      flush_markers_enqueued]
  | abort => simp [pq_step, flush_markers_enqueued]

theorem flush_markers_enqueued_nonneg (q : PacketQueue) (op : PQOp) :
    0 ≤ flush_markers_enqueued q op := by
  cases op <;> simp only [flush_markers_enqueued] <;> (try split) <;> omega

theorem flush_markers_trace_nonneg (q : PacketQueue) (ops : List PQOp) :
    0 ≤ flush_markers_trace q ops := by
  induction ops generalizing q with
  | nil => simp [flush_markers_trace]
  | cons op ops ih =>
    have h1 := flush_markers_enqueued_nonneg q op
    have h2 := ih (pq_step q op)
    simp only [flush_markers_trace]
    omega

theorem pq_run_serial (q : PacketQueue) (ops : List PQOp) :
    (pq_run q ops).serial = q.serial + flush_markers_trace q ops := by
  induction ops generalizing q with
  | nil => simp [pq_run, flush_markers_trace]
  | cons op ops ih =>
    have h1 := pq_step_serial q op
    have h2 := ih (pq_step q op)
    have h3 : pq_run q (op :: ops) = pq_run (pq_step q op) ops := rfl
    have h4 : flush_markers_trace q (op :: ops) =
        flush_markers_enqueued q op + flush_markers_trace (pq_step q op) ops := rfl
    rw [h3, h4]
    omega

/-- C2. Serial monotonicity: each packet-queue operation leaves `serial`
no smaller; across any operation sequence the serial grows by exactly the
number of flush markers actually enqueued (a rejected put on an aborted
queue bumps nothing, `start` always bumps once); and `packet_queue_flush`
keeps `serial` while emptying the queue and zeroing its counters. -/
theorem packet_queue_serial_monotone_c2 :
    (∀ (q : PacketQueue) (op : PQOp), q.serial ≤ (pq_step q op).serial) ∧
    (∀ (q : PacketQueue) (ops : List PQOp),
        (pq_run q ops).serial = q.serial + flush_markers_trace q ops) ∧
    (∀ q : PacketQueue,
        (packet_queue_flush q).serial = q.serial ∧
        (packet_queue_flush q).pkts = [] ∧
        (packet_queue_flush q).nb_packets = 0 ∧
        (packet_queue_flush q).size = 0 ∧
        (packet_queue_flush q).duration = 0) := by
  refine ⟨?_, pq_run_serial, ?_⟩
  · intro q op
    have h1 := pq_step_serial q op
    have h2 := flush_markers_enqueued_nonneg q op
    omega
  · intro q
    exact ⟨rfl, rfl, rfl, rfl, rfl⟩

/-! ## Queue size accounting (C9) -/

theorem pq_accounting_put_private (q : PacketQueue) (pkt : Packet)
    (h : pq_accounting q) :
    ∀ q2, packet_queue_put_private q pkt = some q2 → pq_accounting q2 := by
  intro q2 hq2
  obtain ⟨hs, hn, hd⟩ := h
  unfold packet_queue_put_private at hq2
  by_cases habort : q.abort_request
  · rw [if_pos habort] at hq2
    exact absurd hq2 (by simp)
  · rw [if_neg habort] at hq2
    simp only [Option.some.injEq] at hq2
    subst hq2
    refine ⟨?_, ?_, ?_⟩
    · simp only [List.map_append, List.sum_append, List.map_cons,
        List.map_nil, List.sum_cons, List.sum_nil]
      omega
    · simp only [List.length_append, List.length_cons, List.length_nil]
      push_cast
      omega
    · simp only [List.map_append, List.sum_append, List.map_cons,
        List.map_nil, List.sum_cons, List.sum_nil]
      omega

theorem pq_accounting_step (q : PacketQueue) (op : PQOp)
    (h : pq_accounting q) : pq_accounting (pq_step q op) := by
  cases op with
  | put pkt =>
    simp only [pq_step, packet_queue_put]
    cases hp : packet_queue_put_private q pkt with
    | none => exact h
    | some q2 => exact pq_accounting_put_private q pkt h q2 hp
  | put_null =>
    simp only [pq_step, packet_queue_put_nullpacket, packet_queue_put]
    cases hp : packet_queue_put_private q (Packet.dataPkt 0 0) with
    | none => exact h
    | some q2 => exact pq_accounting_put_private q _ h q2 hp
  | get =>
    obtain ⟨hs, hn, hd⟩ := h
    simp only [pq_step, packet_queue_get]
    by_cases habort : q.abort_request
    · rw [if_pos habort]
      exact ⟨hs, hn, hd⟩
    · rw [if_neg habort]
      cases hq : q.pkts with
      | nil => exact ⟨hs, hn, hd⟩
      | cons e rest =>
        rw [hq] at hs hn hd
        simp only [List.map_cons, List.sum_cons, List.length_cons] at hs hn hd
        refine ⟨?_, ?_, ?_⟩ <;> dsimp only <;> omega
  | flush => exact ⟨rfl, rfl, rfl⟩
  | start =>
    simp only [pq_step, packet_queue_start]
    cases hp : packet_queue_put_private { q with abort_request := false }
        Packet.flushPkt with
    | none =>
      simp only [hp, Option.getD]
      exact h
    | some q2 =>
      simp only [hp, Option.getD]
      exact pq_accounting_put_private { q with abort_request := false }
        Packet.flushPkt h q2 hp
  | abort => exact h

/-- C9. Queue size accounting: the accounting invariant is preserved by
every operation, holds in every state reachable from `packet_queue_init`
by any sequence of operations, and `packet_queue_flush` returns `size`,
`nb_packets` and `duration` to 0. -/
theorem packet_queue_accounting_c9 :
    (∀ (q : PacketQueue) (op : PQOp), pq_accounting q → pq_accounting (pq_step q op)) ∧
    (∀ ops : List PQOp, pq_accounting (pq_run packet_queue_init ops)) ∧
    (∀ q : PacketQueue,
        (packet_queue_flush q).size = 0 ∧
        (packet_queue_flush q).nb_packets = 0 ∧
        (packet_queue_flush q).duration = 0) := by
  refine ⟨pq_accounting_step, ?_, fun q => ⟨rfl, rfl, rfl⟩⟩
  have hrun : ∀ (ops : List PQOp) (q : PacketQueue),
      pq_accounting q → pq_accounting (pq_run q ops) := by
    intro ops
    induction ops with
    | nil => exact fun q h => h
    | cons op ops ih =>
      intro q h
      exact ih (pq_step q op) (pq_accounting_step q op h)
  exact fun ops => hrun ops packet_queue_init ⟨rfl, rfl, rfl⟩

/-- Witness for C9: the invariant-preservation conjunct applied at the
freshly started queue and a concrete data put. -/
theorem packet_queue_accounting_c9_witness :
    pq_accounting (pq_step (packet_queue_start packet_queue_init)
      (PQOp.put (Packet.dataPkt 7 3))) :=
  packet_queue_accounting_c9.1 (packet_queue_start packet_queue_init)
    (PQOp.put (Packet.dataPkt 7 3)) ⟨rfl, rfl, rfl⟩

/-- C10. A freshly initialized packet queue is aborted: every put fails
leaving it unchanged, every get reports the aborted outcome, and after
`packet_queue_start` (which clears the flag and enqueues a flush marker)
the first packet a consumer gets is the flush marker stamped with a serial
strictly greater than the serial at initialization. -/
theorem packet_queue_init_aborted_c10 :
    packet_queue_init.abort_request = true ∧
    (∀ pkt : Packet, packet_queue_put packet_queue_init pkt = (-1, packet_queue_init)) ∧
    (packet_queue_get packet_queue_init).1 = GetResult.aborted ∧
    (packet_queue_get packet_queue_init).2 = packet_queue_init ∧
    (packet_queue_start packet_queue_init).abort_request = false ∧
    (packet_queue_get (packet_queue_start packet_queue_init)).1 =
      GetResult.got Packet.flushPkt (packet_queue_init.serial + 1) ∧
    packet_queue_init.serial < packet_queue_init.serial + 1 := by
  refine ⟨rfl, fun pkt => rfl, rfl, rfl, rfl, by decide, by decide⟩

/-! ## Clock round trip (C7) -/

/-- C7. Setting a clock then reading it at the same instant with the
matching queue serial returns the pts that was set, exactly, for any
pause state and any speed; and a clock whose queue serial has moved past
its own serial reads NaN. -/
theorem clock_set_get_roundtrip_c7 :
    (∀ (c : Clock) (p : EDouble) (s : Int) (t : ℚ),
        get_clock (set_clock_at c p s t) s t = p) ∧
    (∀ (c : Clock) (qs : Int) (t : ℚ), qs ≠ c.serial → get_clock c qs t = none) := by
  constructor
  · intro c p s t
    show (if s ≠ s then none
      else if c.paused then p
      else (p.map (fun v => v - t)).map
        (fun drift => drift + t - (t - t) * (1 - c.speed))) = p
    rw [if_neg (by simp)]
    by_cases hp : c.paused
    · rw [if_pos hp]
    · rw [if_neg hp]
      cases p with
      | none => rfl
      | some x =>
        show some (x - t + t - (t - t) * (1 - c.speed)) = some x
        congr 1
        ring
  · intro c qs t hqs
    unfold get_clock
    rw [if_pos hqs]

/-- Witness for C7: set a paused clock to pts 7 with serial 2 at time 5 and
read it back at time 5 with queue serial 2; and read a clock whose queue
serial does not match. -/
theorem clock_set_get_roundtrip_c7_witness :
    get_clock (set_clock_at initClock (some 7) 2 5) 2 5 = some 7 ∧
    get_clock initClock 3 0 = none :=
  ⟨clock_set_get_roundtrip_c7.1 initClock (some 7) 2 5,
   clock_set_get_roundtrip_c7.2 initClock 3 0 (by decide)⟩

/-! ## Master selection (C5) -/

/-- C5 (amended). Master selection: preference AUDIO returns AUDIO when the
audio stream is present and EXTERNAL otherwise; preference VIDEO returns
VIDEO when the video stream is present and otherwise AUDIO regardless of
whether an audio stream exists; preference EXTERNAL returns EXTERNAL. -/
theorem get_master_sync_type_fallback_c5 :
    ∀ is : VideoState,
      (is.av_sync_type = SyncType.audioMaster → is.audio_st = true →
        get_master_sync_type is = SyncType.audioMaster) ∧
      (is.av_sync_type = SyncType.audioMaster → is.audio_st = false →
        get_master_sync_type is = SyncType.externalClock) ∧
      (is.av_sync_type = SyncType.videoMaster → is.video_st = true →
        get_master_sync_type is = SyncType.videoMaster) ∧
      (is.av_sync_type = SyncType.videoMaster → is.video_st = false →
        get_master_sync_type is = SyncType.audioMaster) ∧
      (is.av_sync_type = SyncType.externalClock →
        get_master_sync_type is = SyncType.externalClock) := by
  intro is
  refine ⟨?_, ?_, ?_, ?_, ?_⟩ <;> intro h1 <;>
    first
    | (intro h2
       simp [get_master_sync_type, h1, h2])
    | simp [get_master_sync_type, h1]

/-- Counterexample for C5 as stated: with preference VIDEO and both the
video and the audio stream absent, the code returns AUDIO, not the
EXTERNAL the claimed VIDEO → AUDIO → EXTERNAL cascade predicts. -/
theorem get_master_sync_type_c5_counterexample :
    get_master_sync_type { baseState with av_sync_type := SyncType.videoMaster, audio_st := false, video_st := false } = SyncType.audioMaster ∧
    get_master_sync_type { baseState with av_sync_type := SyncType.videoMaster, audio_st := false, video_st := false } ≠ SyncType.externalClock := by
  constructor
  · rfl
  · decide

/-- Witness for C5: the amended fallback applied at a state with
preference VIDEO and no video stream. -/
theorem get_master_sync_type_c5_witness :
    get_master_sync_type { baseState with av_sync_type := SyncType.videoMaster, video_st := false } = SyncType.audioMaster :=
  (get_master_sync_type_fallback_c5 _).2.2.2.1 rfl rfl

/-! ## Frame duration (C6) -/

/-- C6 (amended). `vp_duration` on consecutive pictures `(lastvp, vp)`:
with equal serials it returns `vp.pts - lastvp.pts` when that difference
is a real number, positive and at most `max_frame_duration`, and
`lastvp.duration` in every other equal-serial case (NaN difference
included); with differing serials it returns 0, not `lastvp.duration`. -/
theorem vp_duration_c6 :
    ∀ (mfd : ℚ) (lastvp vp : Frame),
      (lastvp.serial = vp.serial →
        (∀ d, esub vp.pts lastvp.pts = some d →
          (0 < d → d ≤ mfd → vp_duration mfd lastvp vp = d) ∧
          (d ≤ 0 ∨ mfd < d → vp_duration mfd lastvp vp = lastvp.duration)) ∧
        (esub vp.pts lastvp.pts = none →
          vp_duration mfd lastvp vp = lastvp.duration)) ∧
      (lastvp.serial ≠ vp.serial → vp_duration mfd lastvp vp = 0) := by
  intro mfd lastvp vp
  constructor
  · intro hser
    constructor
    · intro d hd
      unfold vp_duration
      rw [if_pos hser, hd]
      dsimp only
      constructor
      · intro h0 hle
        rw [if_neg (by push_neg; exact ⟨h0, hle⟩)]
      · intro hbad
        rw [if_pos hbad]
    · intro hnone
      unfold vp_duration
      rw [if_pos hser, hnone]
  · intro hser
    unfold vp_duration
    rw [if_neg hser]

/-- Counterexample for C6 as stated: consecutive pictures with differing
serials, where `lastvp.duration = 5`, give 0 rather than the claimed
fallback to `lastvp.duration`. -/
theorem vp_duration_c6_counterexample :
    vp_duration 3600 ⟨some 0, 5, 0⟩ ⟨some 1, 1, 1⟩ = 0 ∧
    vp_duration 3600 ⟨some 0, 5, 0⟩ ⟨some 1, 1, 1⟩ ≠ (5 : ℚ) := by
  constructor
  · rfl
  · decide

/-- Witness for C6: the pts-difference branch and the differing-serial
branch of the amended statement at concrete pictures. -/
theorem vp_duration_c6_witness :
    vp_duration 3600 ⟨some 2, 7, 4⟩ ⟨some 3, 1, 4⟩ = 1 ∧
    vp_duration 3600 ⟨some 0, 5, 0⟩ ⟨some 1, 1, 1⟩ = 0 := by
  constructor
  · have h := ((vp_duration_c6 3600 ⟨some 2, 7, 4⟩ ⟨some 3, 1, 4⟩).1 rfl).1 1
      (by rw [esub_some]; norm_num)
    exact h.1 (by norm_num) (by norm_num)
  · exact (vp_duration_c6 3600 ⟨some 0, 5, 0⟩ ⟨some 1, 1, 1⟩).2 (by decide)

/-! ## Target delay (C3) -/

theorem sync_threshold_pos (delay : ℚ) :
    0 < max AV_SYNC_THRESHOLD_MIN (min AV_SYNC_THRESHOLD_MAX delay) :=
  lt_of_lt_of_le (by norm_num [AV_SYNC_THRESHOLD_MIN]) (le_max_left _ _)

/-- C3. `compute_target_delay`: with video as master the delay passes
through unchanged; otherwise, writing `diff` for the video-minus-master
clock difference and `st` for the delay clamped into
[AV_SYNC_THRESHOLD_MIN, AV_SYNC_THRESHOLD_MAX], a NaN `diff` or one at
least `max_frame_duration` in magnitude passes the delay through, and in
range: behind by at least `st` shortens to `max 0 (delay + diff)`; ahead
by at least `st` waits `delay + diff` for a long frame
(`delay > AV_SYNC_FRAMEDUP_THRESHOLD`) and doubles the delay for a short
one; strictly inside `(-st, st)` passes the delay through. -/
theorem compute_target_delay_c3 :
    ∀ (is : VideoState) (delay time : ℚ),
      (get_master_sync_type is = SyncType.videoMaster →
        compute_target_delay delay is time = delay) ∧
      (get_master_sync_type is ≠ SyncType.videoMaster →
        (esub (get_clock is.vidclk is.videoq_serial time) (get_master_clock is time) =
            none → compute_target_delay delay is time = delay) ∧
        (∀ diff,
          esub (get_clock is.vidclk is.videoq_serial time) (get_master_clock is time) =
              some diff →
          (is.max_frame_duration ≤ |diff| →
            compute_target_delay delay is time = delay) ∧
          (|diff| < is.max_frame_duration →
            (diff ≤ -(max AV_SYNC_THRESHOLD_MIN (min AV_SYNC_THRESHOLD_MAX delay)) →
              compute_target_delay delay is time = max 0 (delay + diff)) ∧
            (max AV_SYNC_THRESHOLD_MIN (min AV_SYNC_THRESHOLD_MAX delay) ≤ diff →
              AV_SYNC_FRAMEDUP_THRESHOLD < delay →
              compute_target_delay delay is time = delay + diff) ∧
            (max AV_SYNC_THRESHOLD_MIN (min AV_SYNC_THRESHOLD_MAX delay) ≤ diff →
              delay ≤ AV_SYNC_FRAMEDUP_THRESHOLD →
              compute_target_delay delay is time = 2 * delay) ∧
            (-(max AV_SYNC_THRESHOLD_MIN (min AV_SYNC_THRESHOLD_MAX delay)) < diff →
              diff < max AV_SYNC_THRESHOLD_MIN (min AV_SYNC_THRESHOLD_MAX delay) →
              compute_target_delay delay is time = delay)))) := by
  intro is delay time
  constructor
  · intro hm
    unfold compute_target_delay
    rw [if_neg (by simp [hm])]
  · intro hm
    constructor
    · intro hnone
      unfold compute_target_delay
      rw [if_pos hm, hnone]
    · intro diff hdiff
      have hst := sync_threshold_pos delay
      unfold compute_target_delay
      rw [if_pos hm, hdiff]
      dsimp only
      constructor
      · intro hbig
        rw [if_neg (not_lt.mpr hbig)]
      · intro hsmall
        rw [if_pos hsmall]
        refine ⟨?_, ?_, ?_, ?_⟩
        · intro hbehind
          rw [if_pos hbehind]
        · intro hahead hlong
          rw [if_neg (by intro hc; linarith), if_pos ⟨hahead, hlong⟩]
        · intro hahead hshort
          rw [if_neg (by intro hc; linarith),
            if_neg (by intro hc; exact absurd hc.2 (not_lt.mpr hshort)),
            if_pos hahead]
        · intro hlo hhi
          rw [if_neg (by intro hc; linarith),
            if_neg (by intro hc; exact absurd hc.1 (not_le.mpr hhi)),
            if_neg (not_le.mpr hhi)]

/-- Witness for C3: the video-master pass-through and, at a slave state a
full second behind the master, the shortening branch. -/
theorem compute_target_delay_c3_witness :
    compute_target_delay 1 { baseState with av_sync_type := SyncType.videoMaster } 0 = 1 ∧
    compute_target_delay (1/20) videoSlaveState 0 = max 0 ((1/20 : ℚ) + (-1)) := by
  constructor
  · exact (compute_target_delay_c3
      { baseState with av_sync_type := SyncType.videoMaster } 1 0).1 rfl
  · refine ((((compute_target_delay_c3 videoSlaveState (1/20) 0).2 (by decide)).2
      (-1) ?_).2 ?_).1 ?_
    · show esub (some 0) (some 1) = some (-1)
      rw [esub_some]
      norm_num
    · show |(-1 : ℚ)| < (3600 : ℚ)
      norm_num
    · show (-1 : ℚ) ≤ -(max AV_SYNC_THRESHOLD_MIN (min AV_SYNC_THRESHOLD_MAX (1/20)))
      rw [show max AV_SYNC_THRESHOLD_MIN (min AV_SYNC_THRESHOLD_MAX (1/20 : ℚ)) = 1/20 by
        norm_num [AV_SYNC_THRESHOLD_MIN, AV_SYNC_THRESHOLD_MAX]]
      norm_num

/-! ## Stale isolation (C1) -/

/-- C1. Stale isolation: the picture the video refresh step selects for
commit (after discarding, via `frame_queue_next`, every picture whose
serial is not the video packet queue's), and the sample-queue frame
`audio_decode_frame` settles on (after skipping every frame whose serial
is not the audio packet queue's), always carry exactly the feeding packet
queue's current serial. -/
theorem stale_isolation_c1 :
    (∀ (f : FrameQueue) (videoq_serial : Int) (vp : Frame),
        (video_refresh_pick f videoq_serial).1 = some vp →
        vp.serial = videoq_serial) ∧
    (∀ (f : FrameQueue) (audioq_serial : Int) (af : Frame),
        (audio_decode_frame_pick f audioq_serial).1 = some af →
        af.serial = audioq_serial) := by
  constructor
  · intro f videoq_serial
    induction f, videoq_serial using video_refresh_pick.induct with
    | case1 f q hempty =>
      intro vp hvp
      rw [video_refresh_pick, if_pos hempty] at hvp
      exact absurd hvp (by simp)
    | case2 f q hnonempty hpeek =>
      intro vp hvp
      rw [video_refresh_pick, if_neg hnonempty, hpeek] at hvp
      exact absurd hvp (by simp)
    | case3 f q hnonempty vp0 hpeek hstale ih =>
      intro vp hvp
      rw [video_refresh_pick, if_neg hnonempty, hpeek] at hvp
      dsimp only at hvp
      rw [if_pos hstale] at hvp
      exact ih vp hvp
    | case4 f q hnonempty vp0 hpeek hfresh =>
      intro vp hvp
      rw [video_refresh_pick, if_neg hnonempty, hpeek] at hvp
      dsimp only at hvp
      rw [if_neg hfresh] at hvp
      simp only [Option.some.injEq] at hvp
      subst hvp
      exact not_not.mp hfresh
  · intro f audioq_serial
    induction f, audioq_serial using audio_decode_frame_pick.induct with
    | case1 f q hnone =>
      intro af haf
      rw [audio_decode_frame_pick] at haf
      rw [hnone] at haf
      exact absurd haf (by simp)
    | case2 f q af0 hpeek hstale ih =>
      intro af haf
      rw [audio_decode_frame_pick] at haf
      rw [hpeek] at haf
      dsimp only at haf
      rw [if_pos hstale] at haf
      exact ih af haf
    | case3 f q af0 hpeek hfresh =>
      intro af haf
      rw [audio_decode_frame_pick] at haf
      rw [hpeek] at haf
      dsimp only at haf
      rw [if_neg hfresh] at haf
      simp only [Option.some.injEq] at haf
      subst haf
      exact not_not.mp hfresh

/-- Witness for C1: a picture queue and a sample queue each holding a
stale serial-0 frame ahead of a serial-1 frame; both consumers land on the
serial-1 frame. -/
theorem stale_isolation_c1_witness :
    (Frame.mk (some 1) 1 1).serial = 1 ∧ (Frame.mk (some 2) 1 1).serial = 1 := by
  constructor
  · refine stale_isolation_c1.1 ⟨[⟨some 0, 1, 0⟩, ⟨some 1, 1, 1⟩], false, true⟩ 1
      ⟨some 1, 1, 1⟩ ?_
    rw [video_refresh_pick]
    rw [if_neg (by decide)]
    rw [show frame_queue_peek ⟨[⟨some 0, 1, 0⟩, ⟨some 1, 1, 1⟩], false, true⟩ =
      some ⟨some 0, 1, 0⟩ from rfl]
    dsimp only
    rw [if_pos (by decide)]
    rw [video_refresh_pick]
    rw [if_neg (by decide)]
    rfl
  · refine stale_isolation_c1.2 ⟨[⟨some 0, 1, 0⟩, ⟨some 2, 1, 1⟩], false, true⟩ 1
      ⟨some 2, 1, 1⟩ ?_
    rw [audio_decode_frame_pick]
    rw [show frame_queue_peek_readable ⟨[⟨some 0, 1, 0⟩, ⟨some 2, 1, 1⟩], false, true⟩ =
      some ⟨some 0, 1, 0⟩ from rfl]
    dsimp only
    rw [if_pos (by decide)]
    rw [audio_decode_frame_pick]
    rw [show frame_queue_peek_readable (frame_queue_next
      ⟨[⟨some 0, 1, 0⟩, ⟨some 2, 1, 1⟩], false, true⟩) = some ⟨some 2, 1, 1⟩ from rfl]
    dsimp only
    rw [if_neg (by decide)]

/-! ## Audio compensation bounds (C4) -/

theorem tdiv_low_le_self (nb : Int) (h : 0 ≤ nb) :
    Int.tdiv (nb * (100 - SAMPLE_CORRECTION_PERCENT_MAX)) 100 ≤ nb := by
  show Int.tdiv (nb * 90) 100 ≤ nb
  rw [Int.tdiv_eq_ediv (mul_nonneg h (by norm_num)) (by norm_num)]
  calc nb * 90 / 100 ≤ nb * 100 / 100 :=
        Int.ediv_le_ediv (by norm_num) (mul_le_mul_of_nonneg_left (by norm_num) h)
    _ = nb := Int.mul_ediv_cancel nb (by norm_num)

theorem self_le_tdiv_high (nb : Int) (h : 0 ≤ nb) :
    nb ≤ Int.tdiv (nb * (100 + SAMPLE_CORRECTION_PERCENT_MAX)) 100 := by
  show nb ≤ Int.tdiv (nb * 110) 100
  rw [Int.tdiv_eq_ediv (mul_nonneg h (by norm_num)) (by norm_num)]
  calc nb = nb * 100 / 100 := (Int.mul_ediv_cancel nb (by norm_num)).symm
    _ ≤ nb * 110 / 100 :=
        Int.ediv_le_ediv (by norm_num) (mul_le_mul_of_nonneg_left (by norm_num) h)

theorem av_clip_bounds (a amin amax : Int) (h : amin ≤ amax) :
    amin ≤ av_clip a amin amax ∧ av_clip a amin amax ≤ amax := by
  unfold av_clip
  by_cases h1 : a < amin
  · rw [if_pos h1]
    exact ⟨le_refl _, h⟩
  · rw [if_neg h1]
    by_cases h2 : a > amax
    · rw [if_pos h2]
      exact ⟨h, le_refl _⟩
    · rw [if_neg h2]
      exact ⟨by omega, by omega⟩

/-- Every exit of `synchronize_audio` returns either the input count or an
`av_clip` of some wanted count to the 90 and 110 percent marks. -/
theorem synchronize_audio_result_cases (is : VideoState) (nb : Int) (t : ℚ) :
    (synchronize_audio is nb t).1 = nb ∨
    ∃ w, (synchronize_audio is nb t).1 =
      av_clip w (Int.tdiv (nb * (100 - SAMPLE_CORRECTION_PERCENT_MAX)) 100)
        (Int.tdiv (nb * (100 + SAMPLE_CORRECTION_PERCENT_MAX)) 100) := by
  unfold synchronize_audio
  dsimp only
  repeat' split
  all_goals
    first
    | (left; rfl)
    | (right; exact ⟨_, rfl⟩)

/-- C4 (amended). `synchronize_audio` always returns a count between
`nb * 90 / 100` and `nb * 110 / 100` (C integer division — for counts not
divisible by 10 the lower mark lies strictly below the claimed real
`0.9 * nb`); it returns exactly `nb` when audio is the master, when
`|audclk - master| >= AV_NOSYNC_THRESHOLD` (10 s), and when the updated
running average of the A-V difference stays below
`audio_diff_threshold`. -/
theorem synchronize_audio_bounds_c4 :
    ∀ (is : VideoState) (nb : Int) (t : ℚ), 0 ≤ nb →
      (Int.tdiv (nb * (100 - SAMPLE_CORRECTION_PERCENT_MAX)) 100 ≤
          (synchronize_audio is nb t).1 ∧
        (synchronize_audio is nb t).1 ≤
          Int.tdiv (nb * (100 + SAMPLE_CORRECTION_PERCENT_MAX)) 100) ∧
      (get_master_sync_type is = SyncType.audioMaster →
        (synchronize_audio is nb t).1 = nb) ∧
      (∀ diff,
        esub (get_clock is.audclk is.audioq_serial t) (get_master_clock is t) =
            some diff →
        AV_NOSYNC_THRESHOLD ≤ |diff| → (synchronize_audio is nb t).1 = nb) ∧
      (∀ diff,
        esub (get_clock is.audclk is.audioq_serial t) (get_master_clock is t) =
            some diff →
        |diff| < AV_NOSYNC_THRESHOLD →
        |(diff + is.audio_diff_avg_coef * is.audio_diff_cum) *
            (1 - is.audio_diff_avg_coef)| < is.audio_diff_threshold →
        (synchronize_audio is nb t).1 = nb) := by
  intro is nb t hnb
  refine ⟨?_, ?_, ?_, ?_⟩
  · rcases synchronize_audio_result_cases is nb t with h | ⟨w, h⟩
    · rw [h]
      exact ⟨tdiv_low_le_self nb hnb, self_le_tdiv_high nb hnb⟩
    · rw [h]
      exact av_clip_bounds w _ _
        (le_trans (tdiv_low_le_self nb hnb) (self_le_tdiv_high nb hnb))
  · intro hm
    unfold synchronize_audio
    rw [if_neg (not_not_intro hm)]
  · intro diff hd hge
    unfold synchronize_audio
    by_cases hm : get_master_sync_type is ≠ SyncType.audioMaster
    · rw [if_pos hm, hd]
      dsimp only
      rw [if_neg (not_lt.mpr hge)]
    · rw [if_neg hm]
  · intro diff hd hlt hthr
    unfold synchronize_audio
    by_cases hm : get_master_sync_type is ≠ SyncType.audioMaster
    · rw [if_pos hm, hd]
      dsimp only
      rw [if_pos hlt]
      by_cases hc : is.audio_diff_avg_count < AUDIO_DIFF_AVG_NB
      · rw [if_pos hc]
      · rw [if_neg hc]
        rw [if_neg (not_le.mpr hthr)]
    · rw [if_neg hm]

/-- Counterexample for C4 as stated: at a warmed-up slave state a second
behind the master, `synchronize_audio` on 3 samples returns 2, which lies
outside the claimed real interval [0.9 * 3, 1.1 * 3] = [2.7, 3.3] — the
C integer division `3 * 90 / 100 = 2` undershoots `0.9 * 3`. -/
theorem synchronize_audio_c4_counterexample :
    (synchronize_audio audioSlaveState 3 0).1 = 2 ∧
    ¬ ((9 : ℚ) / 10 * 3 ≤ (((synchronize_audio audioSlaveState 3 0).1 : Int) : ℚ)) := by
  have e3 : esub (get_clock audioSlaveState.audclk audioSlaveState.audioq_serial 0)
      (get_master_clock audioSlaveState 0) = some (-1) := by
    rw [show get_clock audioSlaveState.audclk audioSlaveState.audioq_serial 0 =
      some 5 from rfl]
    rw [show get_master_clock audioSlaveState 0 = some 6 from rfl]
    rw [esub_some]
    norm_num
  have h2 : (synchronize_audio audioSlaveState 3 0).1 = 2 := by
    unfold synchronize_audio
    rw [if_pos (by decide), e3]
    dsimp only
    rw [if_pos (by norm_num [AV_NOSYNC_THRESHOLD])]
    rw [if_neg (by decide)]
    rw [if_pos (by norm_num [audioSlaveState, baseState, AUDIO_DIFF_AVG_NB])]
    have ht : truncToInt ((-1 : ℚ) * ((audioSlaveState.audio_src_freq : Int) : ℚ)) =
        -44100 := by
      rw [show audioSlaveState.audio_src_freq = (44100 : Int) from rfl]
      unfold truncToInt
      rw [if_neg (by push_cast; norm_num)]
      rw [show ((-1 : ℚ) * (((44100 : Int) : Int) : ℚ)) = ((-44100 : Int) : ℚ) by
        push_cast; norm_num]
      exact Int.ceil_intCast _
    dsimp only
    rw [ht]
    decide
  refine ⟨h2, ?_⟩
  rw [h2]
  norm_num

/-- Witness for C4: the amended bounds applied at the counterexample state
with 3 input samples. -/
theorem synchronize_audio_c4_witness :
    Int.tdiv (3 * (100 - SAMPLE_CORRECTION_PERCENT_MAX)) 100 ≤
      (synchronize_audio audioSlaveState 3 0).1 ∧
    (synchronize_audio audioSlaveState 3 0).1 ≤
      Int.tdiv (3 * (100 + SAMPLE_CORRECTION_PERCENT_MAX)) 100 :=
  (synchronize_audio_bounds_c4 audioSlaveState 3 0 (by norm_num)).1

/-! ## Reader backpressure (C8) -/

/-- C8 (amended). The reader waits exactly when buffering is not infinite
and either the queues' total size exceeds `MAX_QUEUE_SIZE` or every
opened stream has enough packets, where enough means: aborted queue, or
attached-pic stream, or more than `MIN_FRAMES` packets whose accumulated
duration is zero (unknown) or converts to more than one second — the
zero-duration disjunct being the amendment over the claim as stated. -/
theorem reader_backpressure_c8 :
    (∀ (st : StreamInfo) (stream_id : Int) (queue : PacketQueue),
        stream_has_enough_packets st stream_id queue = true ↔
          (stream_id < 0 ∨ queue.abort_request = true ∨ st.attached_pic = true ∨
           (MIN_FRAMES < queue.nb_packets ∧
            (queue.duration = 0 ∨ 1 < st.time_base * (queue.duration : ℚ))))) ∧
    (∀ (infinite_buffer : Int) (ast vst sst : StreamInfo)
        (aid vid sid : Int) (aq vq sq : PacketQueue),
        reader_should_wait infinite_buffer ast vst sst aid vid sid aq vq sq =
          amended_reader_should_wait infinite_buffer ast vst sst aid vid sid aq vq sq) := by
  constructor
  · intro st stream_id queue
    unfold stream_has_enough_packets
    simp only [Bool.or_eq_true, Bool.and_eq_true, decide_eq_true_eq, gt_iff_lt,
      or_assoc]
  · intro _ _ _ _ _ _ _ _ _ _
    rfl

/-- Counterexample for C8 as stated: one opened audio stream whose queue
holds 26 packets with zero accumulated duration (no duration
information); the code deems it to have enough packets and waits, while
the claimed predicate (which requires the converted duration to exceed
one second) does not. -/
theorem reader_backpressure_c8_counterexample :
    reader_should_wait 0 ⟨false, 1⟩ ⟨false, 1⟩ ⟨false, 1⟩ 0 (-1) (-1)
      ⟨[], 26, 0, 0, 0, false⟩ ⟨[], 0, 0, 0, 0, false⟩ ⟨[], 0, 0, 0, 0, false⟩ = true ∧
    claimed_reader_should_wait 0 ⟨false, 1⟩ ⟨false, 1⟩ ⟨false, 1⟩ 0 (-1) (-1)
      ⟨[], 26, 0, 0, 0, false⟩ ⟨[], 0, 0, 0, 0, false⟩ ⟨[], 0, 0, 0, 0, false⟩ = false := by
  constructor
  · unfold reader_should_wait stream_has_enough_packets
    norm_num [MIN_FRAMES, MAX_QUEUE_SIZE]
  · unfold claimed_reader_should_wait claimed_stream_has_enough_packets
    norm_num [MIN_FRAMES, MAX_QUEUE_SIZE]

end FFplay
